import Mathlib

/-!
Shallow embedding of the nanochat Twitch chat core (`src/twitch.rs`,
`src/twitch/conn.rs`, `src/twitch/conn/tls.rs`): configuration, connection
error taxonomy, handshake classification, the reconnect loop with backoff,
and the fused line reader.
-/

deriving instance DecidableEq for Except

namespace Nanochat

/-- Opaque payload of `std::io::Error`; the code never inspects it. -/
abbrev IoError := String

/-- Opaque payload of `rustls::Error`. -/
abbrev RustlsError := String

/-- Opaque handle for an established `conn::Stream` (`TlsStream<TcpStream>`). -/
abbrev Stream := Nat

/-- Models `tokio::time::error::Elapsed` (no observable payload). -/
inductive Elapsed
  | elapsed
deriving DecidableEq

/-- Models `rustls::client::InvalidDnsNameError` (no observable payload). -/
inductive InvalidDnsNameError
  | invalidDnsName
deriving DecidableEq

/-- Models `TlsConfigError` from `src/twitch/conn/tls.rs`. -/
inductive TlsConfigError
  | Io (e : IoError)
  | Tls (e : RustlsError)
deriving DecidableEq

/-- Models `TlsConfig` from `src/twitch/conn/tls.rs`: an `Arc<ClientConfig>`
(opaque handle, clone shares it) plus the target `ServerName`. -/
structure TlsConfig where
  clientCfg : Nat
  serverName : String
deriving DecidableEq

/-- Models `OpenStreamError` from `src/twitch/conn.rs`; `Io` is its only variant. -/
inductive OpenStreamError
  | Io (e : IoError)
deriving DecidableEq

/-- Modelled from the spec: the external parser's command classifier
(`twitch::Command`). The spec's data model says the core only distinguishes
the welcome, notice and capability-acknowledgment classifiers; every other
classifier is collapsed into `Ping`/`Other`. -/
inductive Command
  | RplWelcome
  | Notice
  | CapAck
  | Ping
  | Other (name : String)
deriving DecidableEq

/-- Modelled from the spec: a parsed protocol message (`twitch::Message`) is
a command classifier plus optional parameter text. -/
structure Message where
  command : Command
  params : Option String
deriving DecidableEq

/-- Models `ReadError` from `src/twitch.rs`. -/
inductive ReadError
  | Io (e : IoError)
  | Parse (s : String)
  | StreamClosed
deriving DecidableEq

/-- Models `ConnectionError` from `src/twitch.rs`, with the payloads the
source carries. -/
inductive ConnectionError
  | Read (e : ReadError)
  | Io (e : IoError)
  | Dns (e : InvalidDnsNameError)
  | Tls (e : TlsConfigError)
  | Open (e : OpenStreamError)
  | Timeout (e : Elapsed)
  | InvalidFirstMessage (m : Message)
  | InvalidAuth
  | Notice (m : Message)
  | Reconnect
deriving DecidableEq

/-- Models `ConnectionError::should_retry`:
`matches!(self, Self::Open(OpenStreamError::Io(_)) | Self::Io(_))`. -/
def ConnectionError.shouldRetry : ConnectionError → Bool
  | .Open (.Io _) => true
  | .Io _ => true
  | _ => false

/-- Prefix test on character lists (used to model Rust's substring search). -/
def charsLeadWith : List Char → List Char → Bool
  | [], _ => true
  | _ :: _, [] => false
  | a :: as, b :: bs => a == b && charsLeadWith as bs

/-- Substring occurrence test on character lists. -/
def charsContain (need : List Char) : List Char → Bool
  | [] => charsLeadWith need []
  | c :: t => charsLeadWith need (c :: t) || charsContain need t

/-- Models Rust's `str::contains(pat)` for a literal pattern. -/
def strContains (s pat : String) : Bool :=
  charsContain pat.data s.data

/-- Models `message.params().map(|v| v.contains("authentication failed")).unwrap_or(false)`
from `Client::handshake`. -/
def hasAuthFailedMarker (m : Message) : Bool :=
  (m.params.map (fun v => strContains v "authentication failed")).getD false

/-- Models the `match message.command()` at the end of `Client::handshake`
(src/twitch.rs lines 138-159): the classification of the first awaited
reply. `Except.ok ()` is the `Connected` success outcome. -/
def handshakeClassify (m : Message) : Except ConnectionError Unit :=
  match m.command with
  | .RplWelcome => .ok ()
  | .Notice =>
    if hasAuthFailedMarker m then .error .InvalidAuth
    else .error (.Notice m)
  | _ => .error (.InvalidFirstMessage m)

/-- Models `ChatConfig` from `src/twitch.rs`. -/
structure ChatConfig where
  nick : String
  pass : String
deriving DecidableEq

/-- Models `ChatConfig::new`: stores both strings as given. -/
def ChatConfig.new (nick pass : String) : ChatConfig :=
  ⟨nick, pass⟩

/-- Models `thread_rng().gen_range(lo..hi)`: a uniform draw from the
half-open range `[lo, hi)`, with the randomness supplied as the
parameter `r`. -/
def genRange (lo hi r : Nat) : Nat :=
  lo + r % (hi - lo)

/-- Models `ChatConfig::anon`:
`pass = "just_a_lil_guy"`, `nick = format!("justinfan{}", gen_range(10000u32..99999u32))`. -/
def ChatConfig.anon (r : Nat) : ChatConfig :=
  { pass := "just_a_lil_guy"
    nick := "justinfan" ++ Nat.repr (genRange 10000 99999 r) }

/-- Models `tokio::io::ReadHalf<conn::Stream>` wrapped by `Reader`: it
records which stream it was derived from. -/
structure ReadHalf where
  source : Stream
deriving DecidableEq

/-- Models `tokio::io::WriteHalf<conn::Stream>` wrapped by `Writer`. -/
structure WriteHalf where
  source : Stream
deriving DecidableEq

/-- Models `split(stream)` from `src/twitch.rs`: `tokio::io::split` derives
the two halves of the one stream. -/
def split (s : Stream) : ReadHalf × WriteHalf :=
  (⟨s⟩, ⟨s⟩)

/-- Models the `Client` aggregate from `src/twitch.rs`. -/
structure Client where
  reader : ReadHalf
  writer : WriteHalf
  out : String
  tls : TlsConfig
  config : ChatConfig
deriving DecidableEq

/-- Models the successful path of `Client::connect` once the TLS context
`tls` has been loaded and `open` produced the stream `s`: the halves come
from `split s`, the scratch buffer starts empty
(`String::with_capacity(1024)`), and the loaded context and the caller's
configuration are stored. -/
def Client.connect (tls : TlsConfig) (config : ChatConfig) (s : Stream) : Client :=
  { reader := (split s).1
    writer := (split s).2
    out := ""
    tls := tls
    config := config }

/-- Outcome of `conn::open(self.tls.clone()).timeout(timeout).await` for
one reconnect attempt: the outer timeout elapsed, `Err(OpenStreamError::Io)`,
or an established stream. -/
inductive OpenResult
  | timeout
  | ioErr (e : IoError)
  | ok (s : Stream)
deriving DecidableEq

/-- Outcome of `self.handshake().timeout(timeout).await` for one reconnect
attempt: the outer timeout elapsed, `Ok(())`, or `Err(e)` for a
`ConnectionError` value `e` produced inside the handshake. -/
inductive HsResult
  | timeout
  | ok
  | fail (e : ConnectionError)
deriving DecidableEq

/-- The environment's behaviour at one reconnect attempt. -/
structure Attempt where
  openR : OpenResult
  hs : HsResult
deriving DecidableEq

/-- An attempt that the reconnect loop consumes and retries past: either
`open` failed with `OpenStreamError::Io`, or `open` succeeded and the
handshake failed with an error for which `should_retry` is true. -/
def Attempt.retried (a : Attempt) : Bool :=
  match a.openR with
  | .ioErr _ => true
  | .timeout => false
  | .ok _ =>
    match a.hs with
    | .fail e => e.shouldRetry
    | _ => false

/-- Observable trace and outcome of one `reconnect` call: the backoff
delays slept (in seconds, in order), the TLS context passed to each
`conn::open` call, the returned result, and the final client state. -/
structure ReconnectRun where
  sleeps : List Nat
  openCalls : List TlsConfig
  result : Except ConnectionError Unit
  client : Client
deriving DecidableEq

/-- Models the `while tries != 0` loop of `Client::reconnect`
(src/twitch.rs lines 79-106). Per iteration: sleep `delay` seconds,
`tries -= 1`, `delay *= 3`, then open (with the client's TLS context) and
on success replace both halves with the new stream's halves before running
the handshake. `env i` is the environment's behaviour at the i-th attempt. -/
def reconnectAux (env : Nat → Attempt) : Nat → Nat → Nat → Client → ReconnectRun
  | 0, _, _, c => ⟨[], [], .error .Reconnect, c⟩
  | t + 1, i, delay, c =>
    match (env i).openR with
    | .timeout => ⟨[delay], [c.tls], .error (.Timeout .elapsed), c⟩
    | .ioErr _ =>
      let r := reconnectAux env t (i + 1) (delay * 3) c
      ⟨delay :: r.sleeps, c.tls :: r.openCalls, r.result, r.client⟩
    | .ok s =>
      let c' : Client := { c with reader := (split s).1, writer := (split s).2 }
      match (env i).hs with
      | .timeout => ⟨[delay], [c.tls], .error (.Timeout .elapsed), c'⟩
      | .ok => ⟨[delay], [c.tls], .ok (), c'⟩
      | .fail e =>
        if e.shouldRetry then
          let r := reconnectAux env t (i + 1) (delay * 3) c'
          ⟨delay :: r.sleeps, c.tls :: r.openCalls, r.result, r.client⟩
        else ⟨[delay], [c.tls], .error e, c'⟩

/-- Models `Client::reconnect`: `tries = 10`, `delay = 3s`, then the loop. -/
def Client.reconnect (c : Client) (env : Nat → Attempt) : ReconnectRun :=
  reconnectAux env 10 0 3 c

/-- The fixed capability list `CAP` from `Client::handshake`. -/
def CAP : String := "twitch.tv/commands twitch.tv/tags"

/-- The three CRLF-terminated handshake commands built from `config`, in
the order the handshake appends them. -/
def handshakeCommands (config : ChatConfig) : String :=
  "CAP REQ :twitch.tv/commands twitch.tv/tags\r\n" ++
    ("NICK " ++ config.nick ++ "\r\n") ++
    ("PASS " ++ config.pass ++ "\r\n")

/-- Observable effect of the write phase of `Client::handshake`: the byte
string handed to the single `write_all` call, the scratch buffer contents
afterwards, and the result the phase propagates. -/
structure WriteAttempt where
  attempted : String
  outAfter : String
  result : Except ConnectionError Unit
deriving DecidableEq

/-- Models src/twitch.rs lines 123-128: three `write!` appends into the
scratch buffer `out`, then one `write_all` of the whole buffer.
`writeOk` is the environment's verdict on the `write_all` call: on
success `self.out.clear()` runs next; on failure the `?` propagates the
I/O error as `ConnectionError::Io` before the clear, leaving the
accumulated commands in the buffer. -/
def handshakeWritePhase (config : ChatConfig) (out : String)
    (writeOk : Bool) (e : IoError) : WriteAttempt :=
  let out := out ++ ("CAP REQ :" ++ CAP ++ "\r\n")
  let out := out ++ ("NICK " ++ config.nick ++ "\r\n")
  let out := out ++ ("PASS " ++ config.pass ++ "\r\n")
  if writeOk then ⟨out, "", .ok ()⟩
  else ⟨out, out, .error (.Io e)⟩

/-- One yielded item of the underlying `LinesStream`:
`io::Result<String>`. -/
abbrev LineItem := Except IoError String

/-- Models `futures_util::stream::Fuse` over an inner stream with state
type `σ`: the `done` flag latches once the inner stream reports
completion. -/
structure Fuse (σ : Type) where
  inner : σ
  done : Bool

/-- Models `Fuse::poll_next`: once `done` is set the inner stream is never
polled again and `none` is returned; otherwise the inner stream is polled
via `step`, and `done` is set exactly when it reports completion. -/
def Fuse.next {σ : Type} (step : σ → Option LineItem × σ) (f : Fuse σ) :
    Option LineItem × Fuse σ :=
  if f.done then (none, f)
  else
    match step f.inner with
    | (none, s) => (none, ⟨s, true⟩)
    | (some x, s) => (some x, ⟨s, false⟩)

/-- Models `Reader::message` (src/twitch.rs lines 191-197): pull the next
line from the fused line source, convert an I/O failure, parse the line,
and report `StreamClosed` when the source is exhausted. `parse` is the
external `twitch::parse` collaborator. -/
def Reader.message {σ : Type} (step : σ → Option LineItem × σ)
    (parse : String → Except String Message) (r : Fuse σ) :
    Except ReadError Message × Fuse σ :=
  match Fuse.next step r with
  | (some (.error e), r') => (.error (.Io e), r')
  | (some (.ok line), r') =>
    match parse line with
    | .ok m => (.ok m, r')
    | .error s => (.error (.Parse s), r')
  | (none, r') => (.error .StreamClosed, r')

/-- A concrete TLS context used by witnesses and counterexamples. -/
def sampleTls : TlsConfig := ⟨0, "irc.chat.twitch.tv"⟩

/-- A concrete client used by witnesses and counterexamples. -/
def sampleClient : Client :=
  { reader := ⟨0⟩
    writer := ⟨0⟩
    out := ""
    tls := sampleTls
    config := ChatConfig.new "justinfan12345" "just_a_lil_guy" }

end Nanochat

namespace Nanochat

/-- C1: handshake classification of the first awaited reply is total: a
welcome reply is the `Connected` success, a notice with the
"authentication failed" marker is `InvalidAuth`, a notice without it is
`Notice` carrying the message verbatim, and every other classifier is
`InvalidFirstMessage` carrying the message; every message lands in exactly
one of these four outcomes. -/
theorem handshake_classification_total (m : Message) :
    (m.command = .RplWelcome → handshakeClassify m = .ok ()) ∧
    (m.command = .Notice → hasAuthFailedMarker m = true →
      handshakeClassify m = .error .InvalidAuth) ∧
    (m.command = .Notice → hasAuthFailedMarker m = false →
      handshakeClassify m = .error (.Notice m)) ∧
    (m.command ≠ .RplWelcome → m.command ≠ .Notice →
      handshakeClassify m = .error (.InvalidFirstMessage m)) ∧
    (handshakeClassify m = .ok () ∨
      handshakeClassify m = .error .InvalidAuth ∨
      handshakeClassify m = .error (.Notice m) ∨
      handshakeClassify m = .error (.InvalidFirstMessage m)) := by
  obtain ⟨cmd, params⟩ := m
  cases cmd with
  | RplWelcome =>
    refine ⟨fun _ => rfl, by simp, by simp, fun hn _ => absurd rfl hn,
      Or.inl rfl⟩
  | Notice =>
    cases h : hasAuthFailedMarker ⟨Command.Notice, params⟩ with
    | true =>
      refine ⟨by simp, fun _ _ => ?_, fun _ hf => ?_,
        fun _ hn => absurd rfl hn, ?_⟩
      · simp [handshakeClassify, h]
      · simp [h] at hf
      · exact Or.inr (Or.inl (by simp [handshakeClassify, h]))
    | false =>
      refine ⟨by simp, fun _ ht => ?_, fun _ _ => ?_,
        fun _ hn => absurd rfl hn, ?_⟩
      · simp [h] at ht
      · simp [handshakeClassify, h]
      · exact Or.inr (Or.inr (Or.inl (by simp [handshakeClassify, h])))
  | CapAck =>
    refine ⟨by simp, by simp, by simp, fun _ _ => rfl,
      Or.inr (Or.inr (Or.inr rfl))⟩
  | Ping =>
    refine ⟨by simp, by simp, by simp, fun _ _ => rfl,
      Or.inr (Or.inr (Or.inr rfl))⟩
  | Other name =>
    refine ⟨by simp, by simp, by simp, fun _ _ => rfl,
      Or.inr (Or.inr (Or.inr rfl))⟩

/-- C1 witness: the four classification outcomes at concrete messages. -/
theorem handshake_classification_total_witness :
    handshakeClassify ⟨.RplWelcome, none⟩ = .ok () ∧
    handshakeClassify ⟨.Notice, some "Login authentication failed"⟩ =
      .error .InvalidAuth ∧
    handshakeClassify ⟨.Notice, some "Improperly formatted auth"⟩ =
      .error (.Notice ⟨.Notice, some "Improperly formatted auth"⟩) ∧
    handshakeClassify ⟨.Ping, none⟩ =
      .error (.InvalidFirstMessage ⟨.Ping, none⟩) :=
  ⟨(handshake_classification_total ⟨.RplWelcome, none⟩).1 rfl,
   (handshake_classification_total ⟨.Notice, some "Login authentication failed"⟩).2.1
     rfl (by decide),
   (handshake_classification_total ⟨.Notice, some "Improperly formatted auth"⟩).2.2.1
     rfl (by decide),
   (handshake_classification_total ⟨.Ping, none⟩).2.2.2.1
     (by decide) (by decide)⟩

/-- C3: `should_retry` is true iff the failure is the generic `Io` variant
or `Open` wrapping `Io`, and false for every other variant, exhaustively
over the enumerated failure kinds. -/
theorem should_retry_exhaustive :
    (∀ e : ConnectionError,
      e.shouldRetry = true ↔ ((∃ x, e = .Io x) ∨ (∃ x, e = .Open (.Io x)))) ∧
    (∀ x, (ConnectionError.Io x).shouldRetry = true) ∧
    (∀ x, (ConnectionError.Open (.Io x)).shouldRetry = true) ∧
    (∀ r, (ConnectionError.Read r).shouldRetry = false) ∧
    (∀ d, (ConnectionError.Dns d).shouldRetry = false) ∧
    (∀ t, (ConnectionError.Tls t).shouldRetry = false) ∧
    (∀ t, (ConnectionError.Timeout t).shouldRetry = false) ∧
    (∀ m, (ConnectionError.InvalidFirstMessage m).shouldRetry = false) ∧
    (ConnectionError.InvalidAuth.shouldRetry = false) ∧
    (∀ m, (ConnectionError.Notice m).shouldRetry = false) ∧
    (ConnectionError.Reconnect.shouldRetry = false) := by
  refine ⟨?_, fun _ => rfl, fun _ => rfl, fun _ => rfl, fun _ => rfl,
    fun _ => rfl, fun _ => rfl, fun _ => rfl, rfl, fun _ => rfl, rfl⟩
  intro e
  cases e with
  | Open o =>
    cases o with
    | Io x => simp [ConnectionError.shouldRetry]
  | _ => simp [ConnectionError.shouldRetry]

/-- The concrete capability-acknowledgment first reply from the spec's
scenario. -/
def ackMessage : Message :=
  ⟨.CapAck, some "* ACK :twitch.tv/commands twitch.tv/tags"⟩

/-- C5 counterexample: the handshake in `src/twitch.rs` awaits a single
reply and has no `AwaitingAck` state; a capability-acknowledgment first
reply with the expected parameter text terminates the handshake with the
`InvalidFirstMessage` error rather than advancing without error. -/
theorem handshake_capack_is_error :
    handshakeClassify ackMessage = .error (.InvalidFirstMessage ackMessage) ∧
    handshakeClassify ackMessage ≠ .ok () := by
  decide

/-- C5 amended: the handshake awaits exactly one reply (the single-message
variant); a capability-acknowledgment reply, whatever its parameter text,
terminates the handshake as `InvalidFirstMessage` carrying the message. -/
theorem handshake_capack_invalid_first (p : Option String) :
    handshakeClassify ⟨.CapAck, p⟩ =
      .error (.InvalidFirstMessage ⟨.CapAck, p⟩) := rfl

theorem digitChar_isDigit : ∀ k < 10, (Nat.digitChar k).isDigit = true := by
  decide

theorem toDigitsCore_all_digits (f : Nat) :
    ∀ (n : Nat) (acc : List Char), (∀ c ∈ acc, c.isDigit = true) →
      ∀ c ∈ Nat.toDigitsCore 10 f n acc, c.isDigit = true := by
  induction f with
  | zero => exact fun n acc hacc c hc => hacc c hc
  | succ f ih =>
    intro n acc hacc c hc
    have hd : (Nat.digitChar (n % 10)).isDigit = true :=
      digitChar_isDigit _ (Nat.mod_lt _ (by norm_num))
    have hacc' : ∀ c ∈ Nat.digitChar (n % 10) :: acc, c.isDigit = true := by
      intro c hc
      rcases List.mem_cons.mp hc with h | h
      · exact h ▸ hd
      · exact hacc c h
    simp only [Nat.toDigitsCore] at hc
    by_cases h : n / 10 = 0
    · rw [if_pos h] at hc
      exact hacc' c hc
    · rw [if_neg h] at hc
      exact ih (n / 10) (Nat.digitChar (n % 10) :: acc) hacc' c hc

theorem toDigitsCore_length_eq_digits (f : Nat) :
    ∀ (n : Nat) (acc : List Char), 0 < n → n < f →
      (Nat.toDigitsCore 10 f n acc).length =
        (Nat.digits 10 n).length + acc.length := by
  induction f with
  | zero => exact fun n acc hn hf => absurd hf (Nat.not_lt_zero n)
  | succ f ih =>
    intro n acc hn hf
    simp only [Nat.toDigitsCore]
    rw [Nat.digits_def' (by norm_num : (1 : Nat) < 10) hn]
    by_cases h : n / 10 = 0
    · rw [if_pos h, h]
      simp
      omega
    · rw [if_neg h]
      have hpos : 0 < n / 10 := Nat.pos_of_ne_zero h
      have hlt : n / 10 < f := by
        have hd : n / 10 < n := Nat.div_lt_self hn (by norm_num)
        omega
      rw [ih (n / 10) (Nat.digitChar (n % 10) :: acc) hpos hlt]
      simp
      omega

theorem repr_length_five (n : Nat) (h1 : 10000 ≤ n) (h2 : n < 100000) :
    (Nat.repr n).length = 5 := by
  have hn : 0 < n := by omega
  show (Nat.toDigits 10 n).asString.length = 5
  have hlen : (Nat.toDigits 10 n).asString.length = (Nat.toDigits 10 n).length := rfl
  rw [hlen, Nat.toDigits,
    toDigitsCore_length_eq_digits (n + 1) n [] hn (Nat.lt_succ_self n),
    Nat.digits_len 10 n (by norm_num) (by omega)]
  have hlog : Nat.log 10 n = 4 := by
    apply Nat.log_eq_of_pow_le_of_lt_pow
    · norm_num
      omega
    · norm_num
      omega
  rw [hlog]
  simp

theorem repr_all_digits (n : Nat) :
    ∀ c ∈ (Nat.repr n).data, c.isDigit = true := by
  intro c hc
  have : c ∈ Nat.toDigitsCore 10 (n + 1) n [] := hc
  exact toDigitsCore_all_digits (n + 1) n [] (by simp) c this

/-- C7: every configuration produced by `ChatConfig::anon` has a nickname
that is exactly `"justinfan"` followed by exactly 5 decimal digits whose
numeric value lies in `[10000, 99999)`, and the fixed placeholder
credential `"just_a_lil_guy"`. -/
theorem anon_config_spec (r : Nat) :
    ∃ d : Nat,
      (ChatConfig.anon r).nick = "justinfan" ++ Nat.repr d ∧
      10000 ≤ d ∧ d < 99999 ∧
      (Nat.repr d).length = 5 ∧
      (∀ c ∈ (Nat.repr d).data, c.isDigit = true) ∧
      (ChatConfig.anon r).pass = "just_a_lil_guy" := by
  refine ⟨genRange 10000 99999 r, rfl, ?_, ?_, ?_, repr_all_digits _, rfl⟩
  · exact Nat.le_add_right _ _
  · have : r % (99999 - 10000) < 99999 - 10000 :=
      Nat.mod_lt _ (by norm_num)
    unfold genRange
    omega
  · apply repr_length_five
    · exact Nat.le_add_right _ _
    · have : r % (99999 - 10000) < 99999 - 10000 :=
        Nat.mod_lt _ (by norm_num)
      unfold genRange
      omega

theorem reconnectAux_sleeps_len_le (env : Nat → Attempt) (t : Nat) :
    ∀ (i delay : Nat) (c : Client),
      (reconnectAux env t i delay c).sleeps.length ≤ t := by
  induction t with
  | zero =>
    intro i delay c
    simp [reconnectAux]
  | succ t ih =>
    intro i delay c
    cases ho : (env i).openR with
    | timeout => simp [reconnectAux, ho]
    | ioErr e =>
      have := ih (i + 1) (delay * 3) c
      simp [reconnectAux, ho]
      omega
    | ok s =>
      cases hh : (env i).hs with
      | timeout => simp [reconnectAux, ho, hh]
      | ok => simp [reconnectAux, ho, hh]
      | fail e =>
        by_cases hr : e.shouldRetry = true
        · have := ih (i + 1) (delay * 3)
            { c with reader := (split s).1, writer := (split s).2 }
          simp [reconnectAux, ho, hh, hr]
          omega
        · simp [reconnectAux, ho, hh, hr]

theorem reconnectAux_openCalls_len (env : Nat → Attempt) (t : Nat) :
    ∀ (i delay : Nat) (c : Client),
      (reconnectAux env t i delay c).openCalls.length =
        (reconnectAux env t i delay c).sleeps.length := by
  induction t with
  | zero =>
    intro i delay c
    simp [reconnectAux]
  | succ t ih =>
    intro i delay c
    cases ho : (env i).openR with
    | timeout => simp [reconnectAux, ho]
    | ioErr e =>
      have := ih (i + 1) (delay * 3) c
      simp [reconnectAux, ho]
      omega
    | ok s =>
      cases hh : (env i).hs with
      | timeout => simp [reconnectAux, ho, hh]
      | ok => simp [reconnectAux, ho, hh]
      | fail e =>
        by_cases hr : e.shouldRetry = true
        · have := ih (i + 1) (delay * 3)
            { c with reader := (split s).1, writer := (split s).2 }
          simp [reconnectAux, ho, hh, hr]
          omega
        · simp [reconnectAux, ho, hh, hr]

theorem sleeps_cons_map (delay : Nat) (rs : List Nat)
    (ih : rs = (List.range rs.length).map (fun k => delay * 3 * 3 ^ k)) :
    delay :: rs =
      (List.range (delay :: rs).length).map (fun k => delay * 3 ^ k) := by
  rw [List.length_cons, List.range_succ_eq_map, List.map_cons, List.map_map]
  refine congrArg₂ List.cons (by simp) ?_
  conv_lhs => rw [ih]
  apply List.map_congr_left
  intro a _
  simp [Function.comp, pow_succ]
  ring

theorem reconnectAux_sleeps_map (env : Nat → Attempt) (t : Nat) :
    ∀ (i delay : Nat) (c : Client),
      (reconnectAux env t i delay c).sleeps =
        (List.range (reconnectAux env t i delay c).sleeps.length).map
          (fun k => delay * 3 ^ k) := by
  induction t with
  | zero =>
    intro i delay c
    simp [reconnectAux]
  | succ t ih =>
    intro i delay c
    cases ho : (env i).openR with
    | timeout => simp [reconnectAux, ho, List.range_succ]
    | ioErr e =>
      simp only [reconnectAux, ho]
      exact sleeps_cons_map delay _ (ih (i + 1) (delay * 3) c)
    | ok s =>
      cases hh : (env i).hs with
      | timeout => simp [reconnectAux, ho, hh, List.range_succ]
      | ok => simp [reconnectAux, ho, hh, List.range_succ]
      | fail e =>
        by_cases hr : e.shouldRetry = true
        · simp only [reconnectAux, ho, hh, hr, if_true]
          exact sleeps_cons_map delay _ (ih (i + 1) (delay * 3)
            { c with reader := (split s).1, writer := (split s).2 })
        · simp [reconnectAux, ho, hh, hr, List.range_succ]

theorem reconnectAux_all_retried (env : Nat → Attempt) (t : Nat) :
    ∀ (i delay : Nat) (c : Client),
      (∀ j, i ≤ j → j < i + t → (env j).retried = true) →
      (reconnectAux env t i delay c).result = .error .Reconnect := by
  induction t with
  | zero =>
    intro i delay c _
    simp [reconnectAux]
  | succ t ih =>
    intro i delay c h
    have hret := h i (Nat.le_refl i) (by omega)
    cases ho : (env i).openR with
    | timeout => simp [Attempt.retried, ho] at hret
    | ioErr e =>
      simp only [reconnectAux, ho]
      exact ih (i + 1) (delay * 3) c
        (fun j hj1 hj2 => h j (by omega) (by omega))
    | ok s =>
      cases hh : (env i).hs with
      | timeout => simp [Attempt.retried, ho, hh] at hret
      | ok => simp [Attempt.retried, ho, hh] at hret
      | fail e =>
        have hr : e.shouldRetry = true := by
          simpa [Attempt.retried, ho, hh] using hret
        simp only [reconnectAux, ho, hh, hr, if_true]
        exact ih (i + 1) (delay * 3)
          { c with reader := (split s).1, writer := (split s).2 }
          (fun j hj1 hj2 => h j (by omega) (by omega))

/-- C4: `reconnect` performs at most 10 sleep-then-open+handshake attempts
(one open call per sleep), the delay slept before attempt `n + 1` is
exactly `3 * 3 ^ n` seconds (so 3s already for the first attempt, then 9s,
27s, ...), and if every attempt fails retryably the result is the terminal
`Reconnect` failure. -/
theorem reconnect_backoff_spec (env : Nat → Attempt) (c : Client) :
    (c.reconnect env).sleeps.length ≤ 10 ∧
    (c.reconnect env).openCalls.length = (c.reconnect env).sleeps.length ∧
    (c.reconnect env).sleeps =
      (List.range (c.reconnect env).sleeps.length).map (fun n => 3 * 3 ^ n) ∧
    ((∀ i, i < 10 → (env i).retried = true) →
      (c.reconnect env).result = .error .Reconnect) :=
  ⟨reconnectAux_sleeps_len_le env 10 0 3 c,
   reconnectAux_openCalls_len env 10 0 3 c,
   reconnectAux_sleeps_map env 10 0 3 c,
   fun h => reconnectAux_all_retried env 10 0 3 c
     (fun j _ hj => h j (by omega))⟩

/-- An environment where every `open` fails with `OpenStreamError::Io`. -/
def envAllIo : Nat → Attempt := fun _ => ⟨.ioErr "connection refused", .ok⟩

/-- C4 witness: with every open failing retryably, reconnect sleeps the
exact backoff sequence and returns `Reconnect`. -/
theorem reconnect_backoff_spec_witness :
    (sampleClient.reconnect envAllIo).result = .error .Reconnect ∧
    (sampleClient.reconnect envAllIo).sleeps =
      [3, 9, 27, 81, 243, 729, 2187, 6561, 19683, 59049] :=
  ⟨(reconnect_backoff_spec envAllIo sampleClient).2.2.2 (by decide),
   by decide⟩

/-- An environment where the handshake reply read fails with a socket
I/O error on every attempt, surfacing as
`ConnectionError::Read(ReadError::Io)`. -/
def readIoFailureEnv : Nat → Attempt :=
  fun _ => ⟨.ok 1, .fail (.Read (.Io "connection reset"))⟩

/-- C2 counterexample: an I/O failure whose root cause is a socket read
failure inside the handshake (reading the handshake reply) surfaces as
`Read(Io)`, for which `should_retry` is false: the reconnect loop
propagates it to the caller after a single attempt instead of consuming
further attempts. -/
theorem reconnect_read_io_not_retried :
    (ConnectionError.Read (.Io "connection reset")).shouldRetry = false ∧
    (sampleClient.reconnect readIoFailureEnv).result =
      .error (.Read (.Io "connection reset")) ∧
    (sampleClient.reconnect readIoFailureEnv).sleeps = [3] := by
  decide

/-- An environment where the first attempt's handshake fails with a
generic `Io` error (as a failed `write_all` of the handshake commands
produces) and the second attempt succeeds. -/
def hsWriteIoEnv : Nat → Attempt :=
  fun i => if i = 0 then ⟨.ok 1, .fail (.Io "broken pipe")⟩ else ⟨.ok 2, .ok⟩

/-- C2 amended: in the reconnect loop the retryable I/O failures are
exactly those surfacing as the generic `Io` variant (for example a failed
handshake write) or as `Open` wrapping `Io`; an I/O failure while reading
the handshake reply surfaces as `Read(Io)` and is not retried but
propagated. -/
theorem reconnect_io_retry_scope (e : IoError) :
    (ConnectionError.Io e).shouldRetry = true ∧
    (ConnectionError.Open (.Io e)).shouldRetry = true ∧
    (ConnectionError.Read (.Io e)).shouldRetry = false ∧
    (sampleClient.reconnect hsWriteIoEnv).result = .ok () ∧
    (sampleClient.reconnect hsWriteIoEnv).sleeps = [3, 9] ∧
    (sampleClient.reconnect readIoFailureEnv).sleeps = [3] :=
  ⟨rfl, rfl, rfl, by decide, by decide, by decide⟩

theorem reconnectAux_preserves (env : Nat → Attempt) (t : Nat) :
    ∀ (i delay : Nat) (c : Client),
      (reconnectAux env t i delay c).client.tls = c.tls ∧
      (reconnectAux env t i delay c).client.config = c.config ∧
      (reconnectAux env t i delay c).client.out = c.out := by
  induction t with
  | zero =>
    intro i delay c
    simp [reconnectAux]
  | succ t ih =>
    intro i delay c
    cases ho : (env i).openR with
    | timeout => simp [reconnectAux, ho]
    | ioErr e =>
      have := ih (i + 1) (delay * 3) c
      simp only [reconnectAux, ho]
      exact this
    | ok s =>
      cases hh : (env i).hs with
      | timeout => simp [reconnectAux, ho, hh]
      | ok => simp [reconnectAux, ho, hh]
      | fail e =>
        by_cases hr : e.shouldRetry = true
        · have := ih (i + 1) (delay * 3)
            { c with reader := (split s).1, writer := (split s).2 }
          simp only [reconnectAux, ho, hh, hr, if_true]
          exact this
        · simp [reconnectAux, ho, hh, hr]

theorem reconnectAux_openCalls_tls (env : Nat → Attempt) (t : Nat) :
    ∀ (i delay : Nat) (c : Client),
      ∀ x ∈ (reconnectAux env t i delay c).openCalls, x = c.tls := by
  induction t with
  | zero =>
    intro i delay c x hx
    simp [reconnectAux] at hx
  | succ t ih =>
    intro i delay c x hx
    cases ho : (env i).openR with
    | timeout =>
      simp [reconnectAux, ho] at hx
      exact hx
    | ioErr e =>
      simp only [reconnectAux, ho] at hx
      rcases List.mem_cons.mp hx with h | h
      · exact h
      · exact ih (i + 1) (delay * 3) c x h
    | ok s =>
      cases hh : (env i).hs with
      | timeout =>
        simp [reconnectAux, ho, hh] at hx
        exact hx
      | ok =>
        simp [reconnectAux, ho, hh] at hx
        exact hx
      | fail e =>
        by_cases hr : e.shouldRetry = true
        · simp only [reconnectAux, ho, hh, hr, if_true] at hx
          rcases List.mem_cons.mp hx with h | h
          · exact h
          · exact ih (i + 1) (delay * 3)
              { c with reader := (split s).1, writer := (split s).2 } x h
        · simp [reconnectAux, ho, hh, hr] at hx
          exact hx

theorem reconnectAux_ok_halves (env : Nat → Attempt) (t : Nat) :
    ∀ (i delay : Nat) (c : Client),
      (reconnectAux env t i delay c).result = .ok () →
      ∃ s j, (env j).openR = .ok s ∧ (env j).hs = .ok ∧
        (reconnectAux env t i delay c).client.reader = (split s).1 ∧
        (reconnectAux env t i delay c).client.writer = (split s).2 := by
  induction t with
  | zero =>
    intro i delay c h
    simp [reconnectAux] at h
  | succ t ih =>
    intro i delay c h
    cases ho : (env i).openR with
    | timeout => simp [reconnectAux, ho] at h
    | ioErr e =>
      simp only [reconnectAux, ho] at h ⊢
      exact ih (i + 1) (delay * 3) c h
    | ok s =>
      cases hh : (env i).hs with
      | timeout => simp [reconnectAux, ho, hh] at h
      | ok =>
        refine ⟨s, i, ho, hh, ?_, ?_⟩
        · simp [reconnectAux, ho, hh]
        · simp [reconnectAux, ho, hh]
      | fail e =>
        by_cases hr : e.shouldRetry = true
        · simp only [reconnectAux, ho, hh, hr, if_true] at h ⊢
          exact ih (i + 1) (delay * 3)
            { c with reader := (split s).1, writer := (split s).2 } h
        · simp [reconnectAux, ho, hh, hr] at h

/-- C9: reconnect leaves the client's configuration and TLS context
untouched, passes the client's stored TLS context verbatim to every
`conn::open` call (no re-load; for a client built by `connect` this is the
context loaded at connect time), and on success replaces the read and
write halves together as the pair derived from the newly opened stream. -/
theorem reconnect_frame_spec (env : Nat → Attempt) (c : Client)
    (tls : TlsConfig) (config : ChatConfig) (s0 : Stream) :
    (c.reconnect env).client.tls = c.tls ∧
    (c.reconnect env).client.config = c.config ∧
    (∀ x ∈ (c.reconnect env).openCalls, x = c.tls) ∧
    (Client.connect tls config s0).tls = tls ∧
    (∀ x ∈ ((Client.connect tls config s0).reconnect env).openCalls, x = tls) ∧
    ((c.reconnect env).result = .ok () →
      ∃ s j, (env j).openR = .ok s ∧ (env j).hs = .ok ∧
        (c.reconnect env).client.reader = (split s).1 ∧
        (c.reconnect env).client.writer = (split s).2) :=
  ⟨(reconnectAux_preserves env 10 0 3 c).1,
   (reconnectAux_preserves env 10 0 3 c).2.1,
   reconnectAux_openCalls_tls env 10 0 3 c,
   rfl,
   reconnectAux_openCalls_tls env 10 0 3 (Client.connect tls config s0),
   reconnectAux_ok_halves env 10 0 3 c⟩

/-- An environment where the first attempt opens stream 5 and the
handshake succeeds. -/
def envOk : Nat → Attempt := fun _ => ⟨.ok 5, .ok⟩

/-- C9 witness: a successful reconnect at a concrete environment replaces
both halves with stream 5's halves, keeps the TLS context and
configuration, and passed the stored TLS context to the one open call. -/
theorem reconnect_frame_spec_witness :
    (∃ s j, (envOk j).openR = .ok s ∧ (envOk j).hs = .ok ∧
      (sampleClient.reconnect envOk).client.reader = (split s).1 ∧
      (sampleClient.reconnect envOk).client.writer = (split s).2) ∧
    sampleTls = sampleClient.tls :=
  ⟨(reconnect_frame_spec envOk sampleClient sampleTls
      (ChatConfig.new "justinfan10000" "just_a_lil_guy") 0).2.2.2.2.2
      (by decide),
   (reconnect_frame_spec envOk sampleClient sampleTls
      (ChatConfig.new "justinfan10000" "just_a_lil_guy") 0).2.2.1
      sampleTls (by decide)⟩

/-- C10: in a reconnect attempt whose `open` succeeds with stream `s`, the
client's halves are replaced with `split s` before the handshake runs; so
both when the handshake fails with a non-retried error and when it times
out, the returned client carries the new transport's halves (the previous
transport's halves are not preserved or restored). -/
theorem reconnect_halves_replaced_before_handshake (env : Nat → Attempt)
    (t i delay : Nat) (c : Client) (s : Stream) (e : ConnectionError)
    (hopen : (env i).openR = .ok s) :
    ((env i).hs = .fail e → e.shouldRetry = false →
      reconnectAux env (t + 1) i delay c =
        ⟨[delay], [c.tls], .error e,
          { c with reader := (split s).1, writer := (split s).2 }⟩) ∧
    ((env i).hs = .timeout →
      reconnectAux env (t + 1) i delay c =
        ⟨[delay], [c.tls], .error (.Timeout .elapsed),
          { c with reader := (split s).1, writer := (split s).2 }⟩) := by
  constructor
  · intro hh hr
    simp [reconnectAux, hopen, hh, hr]
  · intro hh
    simp [reconnectAux, hopen, hh]

/-- An environment where open succeeds with stream 7 and the handshake
rejects the credentials. -/
def envAuthFail : Nat → Attempt := fun _ => ⟨.ok 7, .fail .InvalidAuth⟩

/-- C10 witness: with `InvalidAuth` from the handshake on a freshly opened
stream 7, reconnect returns the error and the client carries stream 7's
halves. -/
theorem reconnect_halves_replaced_witness :
    reconnectAux envAuthFail 10 0 3 sampleClient =
      ⟨[3], [sampleClient.tls], .error .InvalidAuth,
        { sampleClient with reader := (split 7).1, writer := (split 7).2 }⟩ :=
  (reconnect_halves_replaced_before_handshake envAuthFail 9 0 3 sampleClient 7
    .InvalidAuth rfl).1 rfl rfl

/-- C8: the line source is fused. If `message()` reports `StreamClosed`
(the line source reported completion), then every subsequent `message()`
call on the resulting reader returns `StreamClosed` and leaves the reader
unchanged, for any behaviour `step2`/`parse2` of the underlying stream and
parser — the inner stream is never polled again, so the stream is not
resurrected without an explicit reconnect. -/
theorem reader_fused_stream_closed {σ : Type}
    (step : σ → Option LineItem × σ) (parse : String → Except String Message)
    (step2 : σ → Option LineItem × σ) (parse2 : String → Except String Message)
    (r : Fuse σ)
    (h : (Reader.message step parse r).1 = .error .StreamClosed) :
    Reader.message step2 parse2 (Reader.message step parse r).2 =
      (.error .StreamClosed, (Reader.message step parse r).2) := by
  have hdone : (Reader.message step parse r).2.done = true := by
    by_cases hd : r.done
    · simp [Reader.message, Fuse.next, hd]
    · rcases hstep : step r.inner with ⟨x, s'⟩
      cases x with
      | none => simp [Reader.message, Fuse.next, hd, hstep]
      | some item =>
        exfalso
        cases item with
        | error e =>
          simp [Reader.message, Fuse.next, hd, hstep] at h
        | ok line =>
          rcases hp : parse line with m | pe
          · simp [Reader.message, Fuse.next, hd, hstep, hp] at h
          · simp [Reader.message, Fuse.next, hd, hstep, hp] at h
  rcases hr2 : (Reader.message step parse r).2 with ⟨inner2, done2⟩
  rw [hr2] at hdone
  simp at hdone
  subst hdone
  simp [Reader.message, Fuse.next]

/-- C8 witness: a source that completes immediately yields `StreamClosed`,
and a subsequent call returns `StreamClosed` again even against a stepper
that would yield a fresh line. -/
theorem reader_fused_witness :
    (Reader.message (fun s : Nat => (none, s)) (fun t => .error t)
      ⟨0, false⟩).1 = .error .StreamClosed ∧
    Reader.message (fun s : Nat => (some (.ok "PING"), s)) (fun t => .error t)
      (Reader.message (fun s : Nat => (none, s)) (fun t => .error t)
        ⟨0, false⟩).2 =
      (.error .StreamClosed,
        (Reader.message (fun s : Nat => (none, s)) (fun t => .error t)
          ⟨0, false⟩).2) :=
  ⟨rfl,
   reader_fused_stream_closed (fun s : Nat => (none, s)) (fun t => .error t)
     (fun s : Nat => (some (.ok "PING"), s)) (fun t => .error t)
     ⟨0, false⟩ rfl⟩

/-- The configuration used in the dirty-buffer handshake scenario. -/
def retryConfig : ChatConfig := ChatConfig.new "justinfan10000" "just_a_lil_guy"

/-- C6 counterexample: `self.out.clear()` runs only after a successful
`write_all`, and a handshake write failure surfaces as the retryable
`ConnectionError::Io`, so the reconnect loop runs the next handshake with
the three commands still buffered: that handshake's single batched write
carries six commands, not exactly three. -/
theorem handshake_retry_dirty_buffer :
    (handshakeWritePhase retryConfig "" false "broken pipe").result =
      .error (.Io "broken pipe") ∧
    (ConnectionError.Io "broken pipe").shouldRetry = true ∧
    (handshakeWritePhase retryConfig "" false "broken pipe").outAfter =
      handshakeCommands retryConfig ∧
    (handshakeWritePhase retryConfig
        (handshakeWritePhase retryConfig "" false "broken pipe").outAfter
        true "").attempted =
      handshakeCommands retryConfig ++ handshakeCommands retryConfig ∧
    (handshakeWritePhase retryConfig
        (handshakeWritePhase retryConfig "" false "broken pipe").outAfter
        true "").attempted ≠ handshakeCommands retryConfig := by
  decide

/-- C6 amended: every handshake appends the three commands
`CAP REQ :twitch.tv/commands twitch.tv/tags\r\n`, `NICK <nickname>\r\n`,
`PASS <credential>\r\n` (from the client's configuration) to the scratch
buffer and issues the whole accumulated buffer as one single batched
write; the buffer is cleared (empty) only after the write succeeds,
before any reply is awaited. Hence a handshake starting from an empty
buffer writes exactly the three commands, while a failed write leaves
them buffered for the next attempt. -/
theorem handshake_write_phase_spec (config : ChatConfig) (out : String)
    (e : IoError) :
    (handshakeWritePhase config out true e).attempted =
      out ++ handshakeCommands config ∧
    (handshakeWritePhase config out true e).outAfter = "" ∧
    (handshakeWritePhase config out true e).result = .ok () ∧
    (handshakeWritePhase config "" true e).attempted =
      handshakeCommands config ∧
    (handshakeWritePhase config out false e).attempted =
      out ++ handshakeCommands config ∧
    (handshakeWritePhase config out false e).outAfter =
      out ++ handshakeCommands config ∧
    (handshakeWritePhase config out false e).result = .error (.Io e) := by
  have hcap : ("CAP REQ :" ++ CAP ++ "\r\n") =
      "CAP REQ :twitch.tv/commands twitch.tv/tags\r\n" := by decide
  refine ⟨?_, rfl, rfl, ?_, ?_, ?_, rfl⟩
  all_goals
    simp [handshakeWritePhase, handshakeCommands, ← hcap,
      String.append_assoc]

end Nanochat
